import Mathlib

/-!
# Verification of the SEO content analyzer pipeline

Shallow embedding of `analyzer.py`: a regex word tokenizer (`\w+` over the
lowercased text), a sentence splitter (split on runs of `.`, `!`, `?`),
readability metrics, a keyword-frequency table built with `Counter.most_common`,
and the LLM suggestion provider with its mock and fallback branches.

Python floats are modelled by `ℚ` (the claims under study never exercise
binary-float rounding artifacts), `re.findall(r"\w+", ...)` and
`str.lower()` are modelled over the ASCII character classes (Python's `\w`
and `lower` additionally handle non-ASCII word characters, which none of
the claims distinguish), and `str.strip()` strips the ASCII whitespace
characters.
-/

namespace Analyzer

/-- `str.lower()` on one character (ASCII case mapping). -/
def lowerChar (c : Char) : Char :=
  if 'A' ≤ c ∧ c ≤ 'Z' then Char.ofNat (c.toNat + 32) else c

/-- A word character for the `\w` class: letter, digit or underscore. -/
def isWordChar (c : Char) : Bool := c.isAlphanum || c = '_'

/-- Maximal runs of word characters, as in `re.findall(r"\w+", text)`:
each character either extends the current run (when the next character is
also a word character) or closes it; separators are dropped. -/
def wordsOfChars : List Char → List String
  | [] => []
  | c :: cs =>
    if isWordChar c then
      match cs with
      | [] => [String.mk [c]]
      | c' :: _ =>
        if isWordChar c' then
          match wordsOfChars cs with
          | [] => [String.mk [c]]
          | w :: ws => String.mk (c :: w.data) :: ws
        else String.mk [c] :: wordsOfChars cs
    else wordsOfChars cs

/-- `get_words(text)`: `re.findall(r"\w+", text.lower())`. -/
def get_words (text : String) : List String :=
  wordsOfChars (text.data.map lowerChar)

/-- `word_count(text)`: `len(get_words(text))`. -/
def word_count (text : String) : Nat := (get_words text).length

/-- Sentence-terminal punctuation class `[.!?]`. -/
def isTermPunct (c : Char) : Bool := c = '.' || c = '!' || c = '?'

/-- `re.split(r'[.!?]+', text)` over the character list: pieces between
maximal runs of terminal punctuation (empty pieces included, as in Python). -/
def splitOnPunct : List Char → List (List Char)
  | [] => [[]]
  | c :: cs =>
    if isTermPunct c then
      match cs with
      | [] => [] :: splitOnPunct cs
      | c' :: _ =>
        if isTermPunct c' then splitOnPunct cs
        else [] :: splitOnPunct cs
    else
      match splitOnPunct cs with
      | [] => [[c]]
      | p :: ps => (c :: p) :: ps

/-- `str.strip()` on a character list: drop leading and trailing
whitespace. -/
def pyStrip (cs : List Char) : List Char :=
  ((cs.dropWhile Char.isWhitespace).reverse.dropWhile Char.isWhitespace).reverse

/-- `str.strip()`. -/
def strip (s : String) : String := String.mk (pyStrip s.data)

/-- `sentence_split(text)`: split on `[.!?]+`, strip each piece, drop pieces
that are empty after stripping. -/
def sentence_split (text : String) : List String :=
  (((splitOnPunct text.data).map pyStrip).filter (fun p => !p.isEmpty)).map
    String.mk

/-- `avg_sentence_length(sentences)`: mean of per-sentence word counts,
`0` for the empty list. -/
def avg_sentence_length (sentences : List String) : ℚ :=
  if sentences = [] then 0
  else (sentences.map (fun s => ((get_words s).length : ℚ))).sum /
    (sentences.length : ℚ)

/-- The default stopword list of `keyword_frequency` (source order). -/
def defaultStopwords : List String :=
  ["the", "and", "is", "in", "to", "a", "of", "that", "it", "on",
   "for", "with", "as", "this", "are", "an", "be", "by", "or", "we",
   "your", "you"]

/-- The stopword-filtered token sequence
`[w for w in get_words(text) if w not in stopwords]`. -/
def filteredWords (text : String) (stopwords : List String) : List String :=
  (get_words text).filter (fun w => !stopwords.contains w)

/-- First occurrence of each word, in encounter order: the key order of a
Python `Counter`/`dict` built by inserting the words left to right. -/
def dedupFirst : List String → List String
  | [] => []
  | w :: ws => w :: (dedupFirst ws).filter (fun v => v != w)

/-- `Counter(words).items()`: each distinct word paired with its
multiplicity, keys in first-encounter (insertion) order. -/
def counterItems (ws : List String) : List (String × Nat) :=
  (dedupFirst ws).map (fun w => (w, ws.count w))

/-- Insert a pair into a count-descending list, after every entry with a
strictly larger count: the placement a stable descending sort gives an
element coming after the list's elements in the original order. -/
def insertDesc (p : String × Nat) : List (String × Nat) → List (String × Nat)
  | [] => [p]
  | q :: qs => if p.2 < q.2 then q :: insertDesc p qs else p :: q :: qs

/-- Stable sort by descending count: the semantics of
`sorted(items, key=itemgetter(1), reverse=True)` (and of
`heapq.nlargest`, which `Counter.most_common(n)` uses). -/
def sortDesc : List (String × Nat) → List (String × Nat)
  | [] => []
  | p :: ps => insertDesc p (sortDesc ps)

/-- Index of the first occurrence of `w` in `l` (length of `l` if absent). -/
def firstIdx (l : List String) (w : String) : Nat := l.findIdx (fun x => x == w)

/-- `keyword_frequency(text, top_n, stopwords)`: filter out stopwords
(defaulting to `defaultStopwords` when `None` is passed), count with
`Counter`, return `most_common(top_n)`.  `top_n` is a Python `int`;
`most_common(n)` yields the empty list for `n ≤ 0`. -/
def keyword_frequency (text : String) (top_n : Int)
    (stopwords : Option (List String)) : List (String × Nat) :=
  let sw := stopwords.getD defaultStopwords
  (sortDesc (counterItems (filteredWords text sw))).take top_n.toNat

/-- The difficulty label of `readability_checks` (lines 75-80 of the
source), as a function of the unrounded average sentence length. -/
def difficulty_of (avg : ℚ) : String :=
  if avg < 12 then "Easy (good for general audiences)"
  else if avg < 20 then "Moderate"
  else "Hard (consider shortening sentences)"

/-- `round(x, 1)`: rounding to one decimal place.  Python rounds
ties-to-even on binary floats; modelled as round-to-nearest on `ℚ`
(no claim under study exercises an exact tie). -/
def round1 (x : ℚ) : ℚ := (round (x * 10) : ℤ) / 10

/-- The dict returned by `readability_checks`. -/
structure Metrics where
  total_words : Nat
  sentence_count : Nat
  average_sentence_length : ℚ
  long_sentences_count : Nat
  difficulty_estimate : String
  deriving DecidableEq, Repr

/-- `readability_checks(text)`: sentence split, average length, word count,
long sentences (more than 20 words), difficulty label. -/
def readability_checks (text : String) : Metrics :=
  let sentences := sentence_split text
  let avg_sent_len := avg_sentence_length sentences
  ⟨word_count text,
   sentences.length,
   round1 avg_sent_len,
   (sentences.filter (fun s => 20 < (get_words s).length)).length,
   difficulty_of avg_sent_len⟩

/-- The static mock suggestion text of `call_llm` (six bullet lines). -/
def mockText : String :=
  "- Use a clear H1 that includes your main keyword.\n" ++
  "- Add a short meta description (140-160 chars) containing the keyword.\n" ++
  "- Use the top 3 keywords naturally in the first 100 words.\n" ++
  "- Break long paragraphs into smaller ones (2-3 sentences each).\n" ++
  "- Add subheadings (H2/H3) to organize content and include related keywords.\n" ++
  "- Include internal links to related pages and at least one external reference."

/-- The static fallback suggestion text of `call_llm` (four bullet lines). -/
def fallbackText : String :=
  "- (Fallback) Use a clear H1 with the main keyword.\n" ++
  "- (Fallback) Add a meta description (140-160 chars).\n" ++
  "- (Fallback) Use keywords in the first 100 words.\n" ++
  "- (Fallback) Shorten long sentences and add subheadings."

/-- Truthiness of `os.getenv('OPENAI_API_KEY')`: `None` and the empty
string are falsy. -/
def envTruthy : Option String → Bool
  | none => false
  | some s => !s.isEmpty

/-- The runtime environment `call_llm` consults: whether `import openai`
succeeded, the `OPENAI_API_KEY` variable, and the outcome the remote
`ChatCompletion.create` call would have (`Except.error` for any raised
exception, `Except.ok` for the completion content). -/
structure LLMEnv where
  openaiAvailable : Bool
  apiKey : Option String
  remote : String → Except String String

/-- Which branch of `call_llm` produced the result. -/
inductive LLMBranch where
  | mock
  | remote_ok
  | remote_fallback
  deriving DecidableEq, Repr

/-- `call_llm(prompt, use_mock)`: the mock text when mock mode is on, the
openai library is missing, or the key is falsy; otherwise the remote call's
stripped content, with any raised error swallowed into the fallback text.
The returned branch tag records which path executed (`.mock` never
evaluates `env.remote`). -/
def call_llm (env : LLMEnv) (prompt : String) (use_mock : Bool) :
    String × LLMBranch :=
  if use_mock || !env.openaiAvailable || !envTruthy env.apiKey then
    (mockText, LLMBranch.mock)
  else
    match env.remote prompt with
    | Except.ok content => (content.trim, LLMBranch.remote_ok)
    | Except.error _ => (fallbackText, LLMBranch.remote_fallback)

end Analyzer

/-! ## Helper lemmas -/

namespace Analyzer

/-- Stability invariant for the descending count sort: a later entry has
either a strictly smaller count, or an equal count and a strictly larger
measure `m` (instantiated with the first-occurrence index). -/
def SKey (m : String × Nat → Nat) (p q : String × Nat) : Prop :=
  q.2 < p.2 ∨ (p.2 = q.2 ∧ m p < m q)

theorem round1_zero : round1 0 = 0 := by norm_num [round1]

theorem mem_insertDesc (p x : String × Nat) (l : List (String × Nat))
    (h : x ∈ insertDesc p l) : x = p ∨ x ∈ l := by
  induction l with
  | nil => simpa [insertDesc] using h
  | cons q qs ih =>
    rw [insertDesc] at h
    split at h
    · rcases List.mem_cons.mp h with h | h
      · exact Or.inr (List.mem_cons.mpr (Or.inl h))
      · rcases ih h with h | h
        · exact Or.inl h
        · exact Or.inr (List.mem_cons.mpr (Or.inr h))
    · rcases List.mem_cons.mp h with h | h
      · exact Or.inl h
      · exact Or.inr h

theorem mem_sortDesc (x : String × Nat) : ∀ l, x ∈ sortDesc l → x ∈ l
  | p :: ps, h => by
    rw [sortDesc] at h
    rcases mem_insertDesc p x _ h with rfl | h'
    · exact List.mem_cons_self _ _
    · exact List.mem_cons_of_mem _ (mem_sortDesc x ps h')

theorem insertDesc_sorted (p : String × Nat) (l : List (String × Nat))
    (hl : List.Pairwise (fun a b : String × Nat => b.2 ≤ a.2) l) :
    List.Pairwise (fun a b : String × Nat => b.2 ≤ a.2) (insertDesc p l) := by
  induction l with
  | nil => simp [insertDesc]
  | cons q qs ih =>
    rw [insertDesc]
    rcases List.pairwise_cons.mp hl with ⟨hq, hqs⟩
    split
    · rename_i hc
      refine List.pairwise_cons.mpr ⟨?_, ih hqs⟩
      intro x hx
      rcases mem_insertDesc p x qs hx with rfl | hx'
      · exact le_of_lt hc
      · exact hq x hx'
    · rename_i hc
      push_neg at hc
      refine List.pairwise_cons.mpr ⟨?_, hl⟩
      intro x hx
      rcases List.mem_cons.mp hx with rfl | hx'
      · exact hc
      · exact le_trans (hq x hx') hc

theorem sortDesc_sorted : ∀ l : List (String × Nat),
    List.Pairwise (fun a b : String × Nat => b.2 ≤ a.2) (sortDesc l)
  | [] => by simp [sortDesc]
  | p :: ps => by
    rw [sortDesc]
    exact insertDesc_sorted p _ (sortDesc_sorted ps)

theorem insertDesc_pairwise_S (m : String × Nat → Nat) (p : String × Nat)
    (l : List (String × Nat)) (hl : List.Pairwise (SKey m) l)
    (hp : ∀ q ∈ l, m p < m q) :
    List.Pairwise (SKey m) (insertDesc p l) := by
  induction l with
  | nil => simp [insertDesc]
  | cons q qs ih =>
    rw [insertDesc]
    rcases List.pairwise_cons.mp hl with ⟨hq, hqs⟩
    split
    · rename_i hc
      refine List.pairwise_cons.mpr
        ⟨?_, ih hqs (fun r hr => hp r (List.mem_cons_of_mem _ hr))⟩
      intro x hx
      rcases mem_insertDesc p x qs hx with rfl | hx'
      · exact Or.inl hc
      · exact hq x hx'
    · rename_i hc
      push_neg at hc
      refine List.pairwise_cons.mpr ⟨?_, hl⟩
      intro x hx
      rcases List.mem_cons.mp hx with rfl | hx'
      · rcases lt_or_eq_of_le hc with h | h
        · exact Or.inl h
        · exact Or.inr ⟨h.symm, hp x (List.mem_cons_self _ _)⟩
      · rcases hq x hx' with h | h
        · exact Or.inl (lt_of_lt_of_le h hc)
        · rcases lt_or_eq_of_le hc with h2 | h2
          · exact Or.inl (h.1 ▸ h2)
          · exact Or.inr ⟨h2.symm.trans h.1, hp x (List.mem_cons_of_mem _ hx')⟩

theorem sortDesc_pairwise_S (m : String × Nat → Nat) :
    ∀ l : List (String × Nat),
      List.Pairwise (fun a b => m a < m b) l →
      List.Pairwise (SKey m) (sortDesc l)
  | [], _ => by simp [sortDesc]
  | p :: ps, h => by
    rw [sortDesc]
    rcases List.pairwise_cons.mp h with ⟨hp, hps⟩
    exact insertDesc_pairwise_S m p _ (sortDesc_pairwise_S m ps hps)
      (fun q hq => hp q (mem_sortDesc q ps hq))

theorem mem_dedupFirst {v : String} : ∀ {l : List String}, v ∈ dedupFirst l → v ∈ l
  | w :: ws, h => by
    rw [dedupFirst] at h
    rcases List.mem_cons.mp h with rfl | h'
    · exact List.mem_cons_self _ _
    · exact List.mem_cons_of_mem _ (mem_dedupFirst (List.mem_of_mem_filter h'))

theorem firstIdx_cons_self (w : String) (l : List String) : firstIdx (w :: l) w = 0 := by
  simp [firstIdx, List.findIdx_cons]

theorem firstIdx_cons_ne (w a : String) (l : List String) (h : a ≠ w) :
    firstIdx (w :: l) a = firstIdx l a + 1 := by
  have hb : (w == a) = false := beq_eq_false_iff_ne.mpr (Ne.symm h)
  simp [firstIdx, List.findIdx_cons, hb]

theorem dedupFirst_pairwise : ∀ l : List String,
    List.Pairwise (fun a b => firstIdx l a < firstIdx l b) (dedupFirst l)
  | [] => by simp [dedupFirst]
  | w :: ws => by
    rw [dedupFirst]
    refine List.pairwise_cons.mpr ⟨?_, ?_⟩
    · intro v hv
      have hvw : v ≠ w := by simpa using List.of_mem_filter hv
      rw [firstIdx_cons_self, firstIdx_cons_ne w v ws hvw]
      exact Nat.succ_pos _
    · have hf := (dedupFirst_pairwise ws).filter (fun v => v != w)
      refine hf.imp_of_mem ?_
      intro a b ha hb hab
      have haw : a ≠ w := by simpa using List.of_mem_filter ha
      have hbw : b ≠ w := by simpa using List.of_mem_filter hb
      rw [firstIdx_cons_ne w a ws haw, firstIdx_cons_ne w b ws hbw]
      exact Nat.succ_lt_succ hab

theorem counterItems_pairwise (ws : List String) :
    List.Pairwise (fun p q : String × Nat => firstIdx ws p.1 < firstIdx ws q.1)
      (counterItems ws) := by
  unfold counterItems
  rw [List.pairwise_map]
  exact dedupFirst_pairwise ws

theorem keyword_frequency_pairwise (text : String) (n : Int) :
    List.Pairwise (SKey (fun p => firstIdx (filteredWords text defaultStopwords) p.1))
      (keyword_frequency text n none) := by
  unfold keyword_frequency
  exact List.Pairwise.sublist (List.take_sublist _ _)
    (sortDesc_pairwise_S _ _ (counterItems_pairwise _))

theorem splitOnPunct_no_punct : ∀ cs : List Char,
    (∀ c ∈ cs, isTermPunct c = false) → splitOnPunct cs = [cs]
  | [], _ => rfl
  | c :: cs, h => by
    have hc : isTermPunct c = false := h c (List.mem_cons_self c cs)
    have ih := splitOnPunct_no_punct cs (fun d hd => h d (List.mem_cons_of_mem c hd))
    simp [splitOnPunct, hc, ih]

end Analyzer

/-! ## Claim theorems -/

namespace Analyzer

/-- C1 (counterexample): the claim predicts the bare label `"Easy"` for an
average sentence length below 12, but on the empty text (average 0) the
difficulty estimate produced by `readability_checks` is none of the three
bare strings `"Easy"`, `"Moderate"`, `"Hard"`. -/
theorem difficulty_label_not_bare :
    ¬((readability_checks "").difficulty_estimate = "Easy" ∨
      (readability_checks "").difficulty_estimate = "Moderate" ∨
      (readability_checks "").difficulty_estimate = "Hard") := by decide

/-- C1 (amended): the difficulty estimate produced by `readability_checks`
is exactly one of the three strings `"Easy (good for general audiences)"`,
`"Moderate"`, `"Hard (consider shortening sentences)"`, chosen by the bands
avg < 12, 12 ≤ avg < 20, avg ≥ 20 (lower bounds inclusive, upper bounds
exclusive), and the aggregator's label is `difficulty_of` applied to the
unrounded average sentence length. -/
theorem difficulty_estimate_bands (avg : ℚ) :
    ((avg < 12 → difficulty_of avg = "Easy (good for general audiences)") ∧
     (12 ≤ avg → avg < 20 → difficulty_of avg = "Moderate") ∧
     (20 ≤ avg → difficulty_of avg = "Hard (consider shortening sentences)")) ∧
    (difficulty_of avg = "Easy (good for general audiences)" ∨
     difficulty_of avg = "Moderate" ∨
     difficulty_of avg = "Hard (consider shortening sentences)") ∧
    ∀ text, (readability_checks text).difficulty_estimate
      = difficulty_of (avg_sentence_length (sentence_split text)) := by
  refine ⟨⟨fun h => ?_, fun h1 h2 => ?_, fun h => ?_⟩, ?_, fun _ => rfl⟩
  · simp [difficulty_of, h]
  · simp [difficulty_of, h2, not_lt.mpr h1]
  · have h12 : (12:ℚ) ≤ avg := le_trans (by norm_num) h
    simp [difficulty_of, not_lt.mpr h, not_lt.mpr h12]
  · unfold difficulty_of
    split
    · exact Or.inl rfl
    · split
      · exact Or.inr (Or.inl rfl)
      · exact Or.inr (Or.inr rfl)

/-- C1 (witness): the claimed boundary points, with the corrected labels:
11.9 is Easy, 12.0 and 19.9 are Moderate, 20.0 is Hard. -/
theorem difficulty_estimate_bands_witness :
    difficulty_of (119/10) = "Easy (good for general audiences)" ∧
    difficulty_of 12 = "Moderate" ∧
    difficulty_of (199/10) = "Moderate" ∧
    difficulty_of 20 = "Hard (consider shortening sentences)" :=
  ⟨(difficulty_estimate_bands (119/10)).1.1 (by norm_num),
   (difficulty_estimate_bands 12).1.2.1 (by norm_num) (by norm_num),
   (difficulty_estimate_bands (199/10)).1.2.1 (by norm_num) (by norm_num),
   (difficulty_estimate_bands 20).1.2.2 (by norm_num)⟩

/-- C2: when mock mode is requested, or the openai library is unavailable,
or no API credential is configured, `call_llm` returns exactly the fixed
six-bullet mock text through the mock branch — for every possible remote
endpoint behaviour, so the remote call is never reached. -/
theorem call_llm_mock_mode (env : LLMEnv) (prompt : String) (use_mock : Bool)
    (h : use_mock = true ∨ env.openaiAvailable = false ∨ env.apiKey = none) :
    call_llm env prompt use_mock = (mockText, LLMBranch.mock) := by
  rcases h with h | h | h <;> simp [call_llm, h, envTruthy]

/-- C2 (witness): mock mode requested with a credential present and a
remote endpoint that would fail: the mock branch still answers. -/
theorem call_llm_mock_mode_witness :
    call_llm ⟨true, some "k", fun _ => Except.error "boom"⟩ "p" true
      = (mockText, LLMBranch.mock) :=
  call_llm_mock_mode _ _ _ (Or.inl rfl)

/-- C3: when the remote call is attempted (mock mode off, library present,
truthy credential) and the endpoint raises any error, `call_llm` returns
exactly the fixed four-bullet fallback text; being a total function, it
never propagates the error to the caller. -/
theorem call_llm_fallback_on_error (env : LLMEnv) (prompt : String) (err : String)
    (h1 : env.openaiAvailable = true) (h2 : envTruthy env.apiKey = true)
    (h3 : env.remote prompt = Except.error err) :
    call_llm env prompt false = (fallbackText, LLMBranch.remote_fallback) := by
  simp [call_llm, h1, h2, h3]

/-- C3 (witness): credential present and the endpoint throws: the result is
the fallback text. -/
theorem call_llm_fallback_on_error_witness :
    call_llm ⟨true, some "k", fun _ => Except.error "boom"⟩ "p" false
      = (fallbackText, LLMBranch.remote_fallback) :=
  call_llm_fallback_on_error _ _ "boom" rfl rfl rfl

/-- C4: with the default stopword set, `keyword_frequency` returns no word
of the default stopword list, at most `top_n` entries, and the entries are
sorted by descending frequency. -/
theorem keyword_frequency_spec (text : String) (top_n : Int) :
    (∀ p ∈ keyword_frequency text top_n none, p.1 ∉ defaultStopwords) ∧
    (keyword_frequency text top_n none).length ≤ top_n.toNat ∧
    List.Pairwise (fun p q : String × Nat => q.2 ≤ p.2)
      (keyword_frequency text top_n none) := by
  refine ⟨?_, ?_, ?_⟩
  · intro p hp
    simp only [keyword_frequency, Option.getD] at hp
    have h1 := mem_sortDesc p _ (List.mem_of_mem_take hp)
    unfold counterItems at h1
    rcases List.mem_map.mp h1 with ⟨w, hw, rfl⟩
    have h3 := mem_dedupFirst hw
    have h4 := List.mem_filter.mp h3
    simpa using h4.2
  · simp [keyword_frequency, List.length_take]
  · exact List.Pairwise.sublist (List.take_sublist _ _) (sortDesc_sorted _)

/-- C4 (witness): on a concrete text, the top entry `("seo", 2)` is not a
stopword, and the table respects the requested size bound. -/
theorem keyword_frequency_spec_witness :
    ("seo" : String) ∉ defaultStopwords ∧
    (keyword_frequency "seo is great seo helps" 3 none).length ≤ (3 : Int).toNat :=
  ⟨(keyword_frequency_spec "seo is great seo helps" 3).1 ("seo", 2) (by decide),
   (keyword_frequency_spec "seo is great seo helps" 3).2.1⟩

/-- C5: ties in the table returned by `keyword_frequency` are resolved by
first encounter: when two returned entries have equal frequency, the earlier
entry's word first occurs strictly earlier in the stopword-filtered token
sequence of the text. -/
theorem keyword_frequency_stable (text : String) (top_n : Int) (i j : Nat)
    (hij : i < j) (hj : j < (keyword_frequency text top_n none).length)
    (hfreq : ((keyword_frequency text top_n none).get ⟨i, Nat.lt_trans hij hj⟩).2
           = ((keyword_frequency text top_n none).get ⟨j, hj⟩).2) :
    firstIdx (filteredWords text defaultStopwords)
        ((keyword_frequency text top_n none).get ⟨i, Nat.lt_trans hij hj⟩).1
      < firstIdx (filteredWords text defaultStopwords)
        ((keyword_frequency text top_n none).get ⟨j, hj⟩).1 := by
  have hp := keyword_frequency_pairwise text top_n
  have hs := List.pairwise_iff_get.mp hp ⟨i, Nat.lt_trans hij hj⟩ ⟨j, hj⟩ hij
  rcases hs with h | h
  · exact absurd h (by rw [hfreq]; exact lt_irrefl _)
  · exact h.2

/-- C5 (witness): `"aa"` and `"bb"` both occur twice; `"aa"` is seen first
and precedes `"bb"` in the table. -/
theorem keyword_frequency_stable_witness :
    firstIdx (filteredWords "aa bb aa bb cc" defaultStopwords)
        ((keyword_frequency "aa bb aa bb cc" 5 none).get ⟨0, by decide⟩).1
      < firstIdx (filteredWords "aa bb aa bb cc" defaultStopwords)
        ((keyword_frequency "aa bb aa bb cc" 5 none).get ⟨1, by decide⟩).1 :=
  keyword_frequency_stable "aa bb aa bb cc" 5 0 1 (by decide) (by decide) (by decide)

/-- C6 (counterexample): on the empty input the difficulty estimate is not
the bare string `"Easy"` the claim states (it is the longer source label). -/
theorem empty_input_difficulty_label :
    (readability_checks "").difficulty_estimate ≠ "Easy" := by decide

/-- C6 (amended): on the empty input the pipeline suffers no partial
failure: every count of the metrics record is 0, the average sentence
length is 0, the difficulty label is the code's Easy-band label, and the
keyword table is empty for every requested size. -/
theorem empty_input_pipeline (n : Int) :
    readability_checks ""
      = ⟨0, 0, 0, 0, "Easy (good for general audiences)"⟩ ∧
    keyword_frequency "" n none = [] := by
  constructor
  · have h1 : sentence_split "" = [] := by decide
    have h2 : avg_sentence_length [] = 0 := rfl
    simp [readability_checks, h1, h2, round1_zero, Metrics.mk.injEq]
    decide
  · have h3 : sortDesc (counterItems (filteredWords "" defaultStopwords)) = [] := by
      decide
    simp [keyword_frequency, h3]

/-- C7: `avg_sentence_length` on the empty sentence list is 0 (the division
is guarded), and every metrics record with `sentence_count = 0` has
`average_sentence_length = 0`. -/
theorem avg_sentence_length_empty_guard :
    avg_sentence_length [] = 0 ∧
    ∀ text, (readability_checks text).sentence_count = 0 →
      (readability_checks text).average_sentence_length = 0 := by
  refine ⟨rfl, fun text h => ?_⟩
  simp only [readability_checks] at h ⊢
  have hs : sentence_split text = [] := List.length_eq_zero.mp h
  simp [hs, avg_sentence_length, round1_zero]

/-- C7 (witness): the empty text has no sentences and average 0. -/
theorem avg_sentence_length_empty_guard_witness :
    (readability_checks "").average_sentence_length = 0 :=
  avg_sentence_length_empty_guard.2 "" (by decide)

/-- C8: a text containing none of `.`, `!`, `?` splits into at most one
sentence: the whole stripped text when that is non-empty, nothing
otherwise. -/
theorem sentence_split_no_terminal_punct (text : String)
    (h : ∀ c ∈ text.data, c ≠ '.' ∧ c ≠ '!' ∧ c ≠ '?') :
    sentence_split text = if strip text = "" then [] else [strip text] := by
  have h' : ∀ c ∈ text.data, isTermPunct c = false := by
    intro c hc
    have hcc := h c hc
    simp [isTermPunct, hcc.1, hcc.2.1, hcc.2.2]
  have he : ("" : String) = String.mk [] := rfl
  unfold sentence_split
  rw [splitOnPunct_no_punct text.data h']
  cases hp : pyStrip text.data with
  | nil => simp [strip, hp, he]
  | cons a l => simp [strip, hp, he, String.ext_iff]

/-- C8 (witness): a punctuation-free text is returned whole (stripped). -/
theorem sentence_split_no_terminal_punct_witness :
    sentence_split "hello, world" =
      if strip "hello, world" = "" then [] else [strip "hello, world"] :=
  sentence_split_no_terminal_punct "hello, world" (by decide)

/-- C9: `word_count` agrees with the tokenizer: it is the length of
`get_words` on every text. -/
theorem word_count_eq_tokenizer (text : String) :
    word_count text = (get_words text).length := rfl

/-- C10: `keyword_frequency` called with a non-positive `top_n` returns the
empty list (as `Counter.most_common(n)` does for `n ≤ 0`). -/
theorem keyword_frequency_nonpos (text : String) (stopwords : Option (List String))
    (top_n : Int) (h : top_n ≤ 0) :
    keyword_frequency text top_n stopwords = [] := by
  simp [keyword_frequency, Int.toNat_of_nonpos h]

/-- C10 (witness): a negative requested size yields the empty table. -/
theorem keyword_frequency_nonpos_witness :
    keyword_frequency "seo helps" (-3) none = [] :=
  keyword_frequency_nonpos _ none (-3) (by decide)

end Analyzer
